import Mathlib

/-!
Shallow embedding of the Kei runtime (`compiler/src/runtime/runtime.h`).

The runtime is a small C header: a reference-counted string value
(`kei_string` with `data`/`len`/`cap`/`ref` fields) plus fatal-fault
reporting (`kei_panic`, `kei_bounds_check`, `kei_null_check`,
`kei_assert`, `kei_require`).

C memory is modelled explicitly: a pointer is an address in either the
static data segment or the malloc heap (distinct regions never alias),
and a `Store` maps addresses to byte buffers (for `char*` data) and to
`int64_t` cells (for refcounts).  `free` is modelled by removing the
mapping and appending the address to a log, so "released exactly once"
is the log holding the address exactly once.  `malloc` content is
indeterminate: each fresh buffer's initial bytes come from an arbitrary
`junk` oracle carried by the store.  A failed `malloc` returns a null
pointer; the C code's subsequent stores through that pointer are modelled
by the `CResult.nullDeref` outcome (an uncontrolled crash, distinct from
a controlled `exit(1)`).  Machine integers (`int64_t`) are modelled as
`Int`; no operation here overflows in the claims' range.
-/

namespace KeiRuntime

/-- A C pointer: an address in the static data segment (string literals)
or in the malloc heap.  The two regions never alias. -/
inductive Ptr where
  | static : Nat → Ptr
  | heap : Nat → Ptr
deriving DecidableEq, Repr

/-- The `kei_string` struct of runtime.h: `char* data` (none = NULL),
`int64_t len`, `int64_t cap`, `int64_t* ref` (refcount cell address,
none = NULL). -/
structure kei_string where
  data : Option Ptr
  len : Int
  cap : Int
  ref : Option Nat
deriving DecidableEq, Repr

/-- The memory state: static byte buffers, heap byte buffers, heap
refcount cells, bump allocation counters, free logs, and the junk
oracle giving each fresh allocation's indeterminate initial bytes. -/
structure Store where
  statics : Nat → Option (List Nat)
  heapData : Nat → Option (List Nat)
  heapRef : Nat → Option Int
  nextData : Nat
  nextRef : Nat
  freedData : List Ptr
  freedRef : List Nat
  junk : Nat → Nat → Nat

/-- Pointwise update of an address map. -/
def fupd {α : Type} (f : Nat → Option α) (a : Nat) (v : Option α) : Nat → Option α :=
  fun b => if b = a then v else f b

/-- The bytes a data pointer refers to. -/
def readBytes (st : Store) (p : Ptr) : Option (List Nat) :=
  match p with
  | Ptr.static a => st.statics a
  | Ptr.heap a => st.heapData a

/-- `memcpy`/`memcmp` source view: the first `n` bytes behind pointer `p`
(reading through NULL or an unmapped pointer yields nothing; the claims'
theorems hypothesise live pointers). -/
def readSpan (st : Store) (p : Option Ptr) (n : Int) : List Nat :=
  match p with
  | none => []
  | some q => ((readBytes st q).getD []).take n.toNat

/-- The first `n` bytes behind `p + off` (pointer arithmetic source of
`kei_string_substr`'s memcpy). -/
def readSpanFrom (st : Store) (p : Option Ptr) (off : Nat) (n : Int) : List Nat :=
  match p with
  | none => []
  | some q => ((((readBytes st q).getD [])).drop off).take n.toNat

/-- The logical byte sequence of a `kei_string`: the first `len` bytes of
its data buffer. -/
def kei_bytes (st : Store) (s : kei_string) : List Nat :=
  readSpan st s.data s.len

/-- Overwrite `src.length` bytes of `dst` starting at offset `off`
(the effect of `memcpy(dst + off, src, src.length)`). -/
def writeBytes (dst : List Nat) (off : Nat) (src : List Nat) : List Nat :=
  dst.take off ++ src ++ dst.drop (off + src.length)

/-- Apply a buffer transformation at pointer `p`. -/
def writePtr (st : Store) (p : Ptr) (g : List Nat → List Nat) : Store :=
  match p with
  | Ptr.static a => { st with statics := fupd st.statics a ((st.statics a).map g) }
  | Ptr.heap a => { st with heapData := fupd st.heapData a ((st.heapData a).map g) }

/-- `memcpy(p + off, src, src.length)`; a write through NULL never occurs
here on a path that returns normally (see `CResult`). -/
def writeData (st : Store) (p : Option Ptr) (off : Nat) (src : List Nat) : Store :=
  match p with
  | none => st
  | some q => writePtr st q (fun l => writeBytes l off src)

/-- Indeterminate initial content of the next fresh heap buffer. -/
def freshContent (st : Store) (cap : Nat) : List Nat :=
  (List.range cap).map (st.junk st.nextData)

/-- `malloc(cap)` for a data buffer (the success case): returns a fresh
heap pointer whose buffer holds `cap` indeterminate bytes. -/
def mallocData (st : Store) (cap : Int) : Ptr × Store :=
  (Ptr.heap st.nextData,
   { st with
      heapData := fupd st.heapData st.nextData (some (freshContent st cap.toNat))
      nextData := st.nextData + 1 })

/-- `malloc(sizeof(int64_t))` for a refcount cell (the success case); the
cell's initial value is indeterminate (0 here, never read before the
code overwrites it with 1). -/
def mallocRef (st : Store) : Nat × Store :=
  (st.nextRef,
   { st with
      heapRef := fupd st.heapRef st.nextRef (some 0)
      nextRef := st.nextRef + 1 })

/-- `*r = v` on a refcount cell. -/
def writeRefCell (st : Store) (r : Nat) (v : Int) : Store :=
  { st with heapRef := fupd st.heapRef r (some v) }

/-- `free(p)` on a data pointer: drop the mapping, log the release
(`free(NULL)` is a no-op). -/
def freeData (st : Store) (p : Option Ptr) : Store :=
  match p with
  | none => st
  | some (Ptr.heap a) =>
      { st with
         heapData := fupd st.heapData a none
         freedData := st.freedData ++ [Ptr.heap a] }
  | some (Ptr.static a) => { st with freedData := st.freedData ++ [Ptr.static a] }

/-- `free(r)` on a refcount cell. -/
def freeRef (st : Store) (r : Nat) : Store :=
  { st with heapRef := fupd st.heapRef r none, freedRef := st.freedRef ++ [r] }

/-- `strlen`: bytes before the first NUL. -/
def strlenBytes (mem : List Nat) : Nat :=
  (mem.takeWhile (fun b => b != 0)).length

/-- `kei_string_literal` of runtime.h: wrap a pointer to NUL-terminated
static bytes; `len = strlen(s)`, `cap = 0`, `ref = NULL`.  No allocation
(the store is not touched and not returned). -/
def kei_string_literal (st : Store) (p : Ptr) : kei_string :=
  { data := some p
  , len := (strlenBytes ((readBytes st p).getD []) : Int)
  , cap := 0
  , ref := none }

/-- `kei_string_copy` of runtime.h: `if (s.ref != NULL) (*s.ref)++;
return s;`. -/
def kei_string_copy (st : Store) (s : kei_string) : kei_string × Store :=
  match s.ref with
  | some r =>
      (s, { st with heapRef := fupd st.heapRef r ((st.heapRef r).map (fun c => c + 1)) })
  | none => (s, st)

/-- `kei_string_destroy` of runtime.h: on an owned handle decrement the
counter, free buffer and cell when it drops to `<= 0`, and null the
handle's `ref` and `data` fields; a no-op on an unowned handle.  The
first component is the struct `*s` after the call (C passes it by
pointer and mutates it). -/
def kei_string_destroy (st : Store) (s : kei_string) : kei_string × Store :=
  match s.ref with
  | none => (s, st)
  | some r =>
      let c := ((st.heapRef r).getD 0) - 1
      let st1 := writeRefCell st r c
      let st2 := if c ≤ 0 then freeRef (freeData st1 s.data) r else st1
      ({ s with ref := none, data := none }, st2)

/-- Outcome of a C computation that stores through possibly-NULL
pointers: a normal result, or an unchecked write through a null pointer
(undefined behavior / crash — NOT a controlled `exit(1)`). -/
inductive CResult (α : Type) where
  | ok : α → CResult α
  | nullDeref : CResult α

/-- `kei_string_alloc` of runtime.h, with the success of each of its two
`malloc` calls made explicit (`dataOk` for the data buffer, `refOk` for
the refcount cell).  Mirrors the C statement order: `r.cap = len + 1;
r.data = malloc(cap); r.len = len; r.ref = malloc(8); *r.ref = 1;
r.data[len] = 0;`.  The code performs NO null check: a failed malloc
leads straight to a store through NULL. -/
def kei_string_alloc (st : Store) (len : Int) (dataOk refOk : Bool) :
    CResult (kei_string × Store) :=
  let cap := len + 1
  let pd : Option Ptr := if dataOk then some (Ptr.heap st.nextData) else none
  let st1 := if dataOk then (mallocData st cap).2 else st
  let pr : Option Nat := if refOk then some st1.nextRef else none
  let st2 := if refOk then (mallocRef st1).2 else st1
  match pr with
  | none => CResult.nullDeref
  | some r =>
      let st3 := writeRefCell st2 r 1
      match pd with
      | none => CResult.nullDeref
      | some p =>
          let st4 := writeData st3 (some p) len.toNat [0]
          CResult.ok ({ data := some p, len := len, cap := cap, ref := some r }, st4)

/-- `kei_string_concat` of runtime.h: allocate `a.len + b.len (+ 1)`,
copy `a`'s bytes, then `b`'s bytes, then the terminator. -/
def kei_string_concat (st : Store) (a b : kei_string) (dataOk refOk : Bool) :
    CResult (kei_string × Store) :=
  let newLen := a.len + b.len
  match kei_string_alloc st newLen dataOk refOk with
  | CResult.nullDeref => CResult.nullDeref
  | CResult.ok (r, st1) =>
      let st2 := writeData st1 r.data 0 (readSpan st1 a.data a.len)
      let st3 := writeData st2 r.data a.len.toNat (readSpan st2 b.data b.len)
      let st4 := writeData st3 r.data newLen.toNat [0]
      CResult.ok (r, st4)

/-- `kei_string_len` of runtime.h. -/
def kei_string_len (s : kei_string) : Int :=
  s.len

/-- `kei_string_eq` of runtime.h: length check, then pointer-identity
fast path, then `memcmp(a.data, b.data, a.len)`: a comparison of the
first `a.len` bytes behind each pointer. -/
def kei_string_eq (st : Store) (a b : kei_string) : Bool :=
  if a.len ≠ b.len then false
  else if a.data = b.data then true
  else readSpan st a.data a.len == readSpan st b.data a.len

/-- The static address of the compiled-in `""` literal that
`kei_string_substr` returns for an empty result; its memory is the lone
terminator byte `[0]` (see `StoreWF`). -/
def emptyLitPtr : Ptr :=
  Ptr.static 0

/-- `kei_string_substr` of runtime.h: clamp `start` from below at 0 and
`end` from above at `s.len`; if `start >= end` return
`kei_string_literal("")`, else allocate and copy `[start, end)`. -/
def kei_string_substr (st : Store) (s : kei_string) (start0 end0 : Int)
    (dataOk refOk : Bool) : CResult (kei_string × Store) :=
  let start1 := if start0 < 0 then 0 else start0
  let end1 := if end0 > s.len then s.len else end0
  if start1 ≥ end1 then
    CResult.ok (kei_string_literal st emptyLitPtr, st)
  else
    let newLen := end1 - start1
    match kei_string_alloc st newLen dataOk refOk with
    | CResult.nullDeref => CResult.nullDeref
    | CResult.ok (r, st1) =>
        let st2 := writeData st1 r.data 0 (readSpanFrom st1 s.data start1.toNat newLen)
        let st3 := writeData st2 r.data newLen.toNat [0]
        CResult.ok (r, st3)

/-- Outcome of a runtime check: return normally, or terminate the process
with an exit status after writing one diagnostic string to stderr. -/
inductive CheckResult where
  | ok : CheckResult
  | fatal : Int → String → CheckResult
deriving DecidableEq, Repr

/-- `kei_panic` of runtime.h: `fprintf(stderr, "panic: %s\n", msg);
exit(1);`. -/
def kei_panic (msg : String) : CheckResult :=
  CheckResult.fatal 1 ("panic: " ++ msg ++ "\n")

/-- The diagnostic `kei_bounds_check` formats on failure. -/
def boundsMsg (index length : Int) : String :=
  "panic: index out of bounds: index " ++ toString index ++
    ", length " ++ toString length ++ "\n"

/-- `kei_bounds_check` of runtime.h: fatal iff `index < 0 || index >=
length`. -/
def kei_bounds_check (index length : Int) : CheckResult :=
  if index < 0 ∨ index ≥ length then CheckResult.fatal 1 (boundsMsg index length)
  else CheckResult.ok

/-- `kei_null_check` of runtime.h: delegates to `kei_panic` when the
pointer is NULL. -/
def kei_null_check (ptr : Option Ptr) : CheckResult :=
  if ptr = none then kei_panic "null pointer dereference" else CheckResult.ok

/-- `kei_assert` of runtime.h. -/
def kei_assert (cond : Bool) (msg : String) : CheckResult :=
  if cond = false then CheckResult.fatal 1 ("assertion failed: " ++ msg ++ "\n")
  else CheckResult.ok

/-- `kei_require` of runtime.h. -/
def kei_require (cond : Bool) (msg : String) : CheckResult :=
  if cond = false then CheckResult.fatal 1 ("requirement failed: " ++ msg ++ "\n")
  else CheckResult.ok

/-- `k` successive `kei_string_copy s` calls (one per new alias). -/
def nCopies (st : Store) (s : kei_string) : Nat → Store
  | 0 => st
  | k + 1 => (kei_string_copy (nCopies st s k) s).2

/-- `j` successive `kei_string_destroy` calls, each on its own live
handle equal to `s` (C handles are struct values: every alias holds the
same field contents). -/
def nDestroys (st : Store) (s : kei_string) : Nat → Store
  | 0 => st
  | j + 1 => (kei_string_destroy (nDestroys st s j) s).2

/-- A well-formed memory: the bump allocators are ahead of every mapped
heap address, and the `""` literal's static memory is in place. -/
def StoreWF (st : Store) : Prop :=
  (∀ a, st.nextData ≤ a → st.heapData a = none) ∧
  (∀ a, st.nextRef ≤ a → st.heapRef a = none) ∧
  st.statics 0 = some [0]

/-- A live string handle: nonnegative length, a non-NULL data pointer
mapped to a buffer at least `len` bytes long. -/
def StrWF (st : Store) (s : kei_string) : Prop :=
  0 ≤ s.len ∧ ∃ p mem, s.data = some p ∧ readBytes st p = some mem ∧
    s.len.toNat ≤ mem.length

/-! ### Concrete memory images used by the witnesses -/

/-- A small well-formed memory: the `""` literal at static address 0 and
the literals `hello`, `foo`, `bar` at static addresses 1, 2, 3; an empty
heap. -/
def demoStore : Store :=
  { statics := fun a =>
      if a = 0 then some [0]
      else if a = 1 then some [104, 101, 108, 108, 111, 0]
      else if a = 2 then some [102, 111, 111, 0]
      else if a = 3 then some [98, 97, 114, 0]
      else none
  , heapData := fun _ => none
  , heapRef := fun _ => none
  , nextData := 0
  , nextRef := 0
  , freedData := []
  , freedRef := []
  , junk := fun _ _ => 7 }

/-- `kei_string_literal("hello")` against `demoStore`. -/
def helloS : kei_string :=
  kei_string_literal demoStore (Ptr.static 1)

/-- `kei_string_literal("foo")` against `demoStore`. -/
def fooS : kei_string :=
  kei_string_literal demoStore (Ptr.static 2)

/-- `kei_string_literal("bar")` against `demoStore`. -/
def barS : kei_string :=
  kei_string_literal demoStore (Ptr.static 3)

/-- A memory holding one live owned string (`ownedS` below): a 1-byte
buffer at heap address 0 and a refcount cell at address 0 holding 2. -/
def ownedStore : Store :=
  { statics := fun a => if a = 0 then some [0] else none
  , heapData := fun a => if a = 0 then some [65, 0] else none
  , heapRef := fun a => if a = 0 then some 2 else none
  , nextData := 1
  , nextRef := 1
  , freedData := []
  , freedRef := []
  , junk := fun _ _ => 7 }

/-- An owned handle into `ownedStore` with shared counter 2. -/
def ownedS : kei_string :=
  { data := some (Ptr.heap 0), len := 1, cap := 2, ref := some 0 }

/-! ### Map-update and frame lemmas -/

theorem fupd_self {α : Type} (f : Nat → Option α) (a : Nat) (v : Option α) :
    fupd f a v a = v := by
  simp [fupd]

theorem fupd_ne {α : Type} (f : Nat → Option α) (a : Nat) (v : Option α)
    (b : Nat) (h : b ≠ a) : fupd f a v b = f b := by
  simp [fupd, h]

theorem demoStore_wf : StoreWF demoStore :=
  ⟨fun _ _ => rfl, fun _ _ => rfl, rfl⟩

theorem helloS_wf : StrWF demoStore helloS :=
  ⟨by decide, Ptr.static 1, [104, 101, 108, 108, 111, 0], rfl, rfl, by decide⟩

theorem fooS_wf : StrWF demoStore fooS :=
  ⟨by decide, Ptr.static 2, [102, 111, 111, 0], rfl, rfl, by decide⟩

theorem barS_wf : StrWF demoStore barS :=
  ⟨by decide, Ptr.static 3, [98, 97, 114, 0], rfl, rfl, by decide⟩


/-- Claim C9: on an unowned string (ownership field absent, `ref = NULL`)
`kei_string_destroy` is a no-op regardless of call count: the handle is
returned unchanged and the store (buffers, refcells, free logs) is
untouched. -/
theorem C9_destroy_unowned_noop (st : Store) (s : kei_string) (j : Nat)
    (h : s.ref = none) :
    kei_string_destroy st s = (s, st) ∧ nDestroys st s j = st := by
  have h1 : kei_string_destroy st s = (s, st) := by
    simp [kei_string_destroy, h]
  refine ⟨h1, ?_⟩
  induction j with
  | zero => rfl
  | succ j ih => simp [nDestroys, ih, h1]

/-- Witness for C9: destroying the unowned literal `"hello"` three times
leaves the handle and the memory untouched. -/
theorem C9_witness :
    kei_string_destroy demoStore helloS = (helloS, demoStore) ∧
    nDestroys demoStore helloS 3 = demoStore :=
  C9_destroy_unowned_noop demoStore helloS 3 rfl

/-- Claim C10: after `kei_string_destroy` returns on an owned handle, the
handle struct has its `data` and `ref` fields nulled (whatever the
counter value, including when it stays positive), so a second destroy of
that same struct is a silent no-op: it returns the struct unchanged and
touches no store. -/
theorem C10_destroy_clears_handle (st : Store) (s : kei_string) (r : Nat)
    (h : s.ref = some r) :
    (kei_string_destroy st s).1.data = none ∧
    (kei_string_destroy st s).1.ref = none ∧
    (∀ st2, kei_string_destroy st2 (kei_string_destroy st s).1 =
      ((kei_string_destroy st s).1, st2)) := by
  refine ⟨by simp [kei_string_destroy, h], by simp [kei_string_destroy, h], ?_⟩
  intro st2
  simp [kei_string_destroy, h]

/-- Witness for C10: destroying `ownedS` (counter 2) leaves the counter
positive (1), nulls the handle fields, and a second destroy of the
returned struct is a no-op. -/
theorem C10_witness :
    ((kei_string_destroy ownedStore ownedS).2.heapRef 0 = some 1) ∧
    (kei_string_destroy ownedStore ownedS).1.data = none ∧
    (kei_string_destroy ownedStore ownedS).1.ref = none ∧
    (∀ st2, kei_string_destroy st2 (kei_string_destroy ownedStore ownedS).1 =
      ((kei_string_destroy ownedStore ownedS).1, st2)) :=
  ⟨rfl, C10_destroy_clears_handle ownedStore ownedS 0 rfl⟩


/-- Claim C2 (code bug): `kei_string_alloc` performs no null check on
either `malloc` result.  When the allocator fails, the code does NOT
terminate the process in a controlled fatal way; it stores through the
null pointer (`*r.ref = 1` resp. `r.data[len] = 0`), an unchecked use of
a failed allocation.  This theorem evaluates the code at the failing
inputs: allocator exhaustion on the data buffer resp. the refcount cell
of `kei_string_alloc(3)`, and of the allocations inside concat and
substring, each ending in a null-pointer store, never in a controlled
`CheckResult.fatal`-style exit. -/
theorem C2_alloc_oom_unchecked_null_write :
    kei_string_alloc demoStore 3 false true = CResult.nullDeref ∧
    kei_string_alloc demoStore 3 true false = CResult.nullDeref ∧
    kei_string_concat demoStore fooS barS false true = CResult.nullDeref ∧
    kei_string_substr demoStore helloS 0 2 false true = CResult.nullDeref :=
  ⟨rfl, rfl, rfl, rfl⟩

/-- Claim C6: `kei_bounds_check i n` is fatal (exit status 1, one
diagnostic whose text contains the decimal renderings of both `i` and
`n`) exactly when `i < 0` or `i >= n`, and returns normally exactly when
`0 <= i < n`. -/
theorem C6_bounds_check_spec (i n : Int) :
    (kei_bounds_check i n = CheckResult.fatal 1 (boundsMsg i n) ↔ (i < 0 ∨ n ≤ i)) ∧
    (kei_bounds_check i n = CheckResult.ok ↔ (0 ≤ i ∧ i < n)) ∧
    List.IsInfix (toString i).data (boundsMsg i n).data ∧
    List.IsInfix (toString n).data (boundsMsg i n).data := by
  refine ⟨?_, ?_, ?_, ?_⟩
  · constructor
    · intro h
      by_contra hc
      push_neg at hc
      rw [kei_bounds_check, if_neg (by omega)] at h
      exact CheckResult.noConfusion h
    · intro h
      rw [kei_bounds_check, if_pos (by omega)]
  · constructor
    · intro h
      by_contra hc
      rw [kei_bounds_check, if_pos (by omega)] at h
      exact CheckResult.noConfusion h
    · intro h
      rw [kei_bounds_check, if_neg (by omega)]
  · exact ⟨"panic: index out of bounds: index ".data,
      (", length " ++ toString n ++ "\n").data,
      by simp [boundsMsg, String.data_append]⟩
  · exact ⟨("panic: index out of bounds: index " ++ toString i ++ ", length ").data,
      "\n".data,
      by simp [boundsMsg, String.data_append]⟩

/-- Claim C7: every fatal fault exits with status 1 after one diagnostic
line with the fixed prefix of its kind: `panic:` for `kei_panic` (and
for `kei_null_check`, which delegates to `kei_panic` with a fixed
message), `assertion failed:` for `kei_assert`, `requirement failed:`
for `kei_require`, each followed by the supplied message and a single
trailing newline (one line exactly when the message itself has no
newline: the newline count of the diagnostic is the message newline
count plus one).  When the condition holds (or the pointer is non-null)
the checks return normally with no effect. -/
theorem C7_fault_reporting (msg : String) (q : Ptr) :
    kei_panic msg = CheckResult.fatal 1 ("panic: " ++ msg ++ "\n") ∧
    kei_null_check none = kei_panic "null pointer dereference" ∧
    kei_null_check (some q) = CheckResult.ok ∧
    kei_assert true msg = CheckResult.ok ∧
    kei_assert false msg = CheckResult.fatal 1 ("assertion failed: " ++ msg ++ "\n") ∧
    kei_require true msg = CheckResult.ok ∧
    kei_require false msg = CheckResult.fatal 1 ("requirement failed: " ++ msg ++ "\n") ∧
    ("panic: " ++ msg ++ "\n").data.count '\n' = msg.data.count '\n' + 1 ∧
    ("assertion failed: " ++ msg ++ "\n").data.count '\n' = msg.data.count '\n' + 1 ∧
    ("requirement failed: " ++ msg ++ "\n").data.count '\n' = msg.data.count '\n' + 1 := by
  refine ⟨rfl, rfl, by simp [kei_null_check], rfl, rfl, rfl, rfl, ?_, ?_, ?_⟩ <;>
    simp [String.data_append, List.count_append]


/-- A static memory whose address 1 holds the byte span `[104, 0, 105]`
(three bytes, one of them NUL) followed by the C terminator. -/
def nulSpanStore : Store :=
  { statics := fun a =>
      if a = 0 then some [0]
      else if a = 1 then some [104, 0, 105, 0]
      else none
  , heapData := fun _ => none
  , heapRef := fun _ => none
  , nextData := 0
  , nextRef := 0
  , freedData := []
  , freedRef := []
  , junk := fun _ _ => 7 }

theorem strlenBytes_of_span (span rest : List Nat) (hz : ∀ x ∈ span, x ≠ 0) :
    strlenBytes (span ++ 0 :: rest) = span.length := by
  induction span with
  | nil => simp [strlenBytes]
  | cons a s ih =>
      have ha : a ≠ 0 := hz a (by simp)
      have ih1 := ih (fun x hx => hz x (by simp [hx]))
      have ha2 : (a != 0) = true := by simpa using ha
      simp only [strlenBytes, List.cons_append, List.takeWhile] at ih1 ⊢
      simp [ha2, ih1]

/-- Counterexample to claim C8 as stated: the input byte span
`[104, 0, 105]` (not null-free, byte count 3) sits in static memory with
its terminator, yet `kei_string_literal` gives the wrapped string length
1, not 3 — `strlen` stops at the first NUL byte. -/
theorem C8_counterexample :
    nulSpanStore.statics 1 = some ([104, 0, 105] ++ [0]) ∧
    (kei_string_literal nulSpanStore (Ptr.static 1)).len = 1 ∧
    ([104, 0, 105] : List Nat).length = 3 :=
  ⟨rfl, rfl, rfl⟩

/-- Claim C8 as amended: for every input byte span stored behind a
pointer with a C terminator, `kei_string_literal` returns an unowned
string (`ref` absent, `cap = 0`) that wraps the given pointer without
allocating; its length is the number of bytes before the first NUL — the
full byte count whenever the span is null-free — and its byte sequence
is the pre-NUL span.  It never fails. -/
theorem C8_literal_wraps (st : Store) (p : Ptr) (span rest : List Nat)
    (hmem : readBytes st p = some (span ++ 0 :: rest))
    (hz : ∀ x ∈ span, x ≠ 0) :
    kei_string_literal st p =
      { data := some p, len := (span.length : Int), cap := 0, ref := none } ∧
    kei_bytes st (kei_string_literal st p) = span := by
  have hlen : kei_string_literal st p =
      { data := some p, len := (span.length : Int), cap := 0, ref := none } := by
    simp [kei_string_literal, hmem, strlenBytes_of_span span rest hz]
  refine ⟨hlen, ?_⟩
  rw [hlen]
  simp [kei_bytes, readSpan, hmem]

/-- Witness for C8 (amended): the literal `"foo"` (span `[102, 111,
111]`, null-free) against `demoStore` has length 3, capacity 0, no
ownership cell, and byte sequence `[102, 111, 111]`. -/
theorem C8_witness :
    kei_string_literal demoStore (Ptr.static 2) =
      { data := some (Ptr.static 2), len := 3, cap := 0, ref := none } ∧
    kei_bytes demoStore (kei_string_literal demoStore (Ptr.static 2)) =
      [102, 111, 111] :=
  C8_literal_wraps demoStore (Ptr.static 2) [102, 111, 111] [] rfl (by decide)


theorem kei_bytes_length (st : Store) (s : kei_string) (h : StrWF st s) :
    (kei_bytes st s).length = s.len.toNat := by
  obtain ⟨h0, p, mem, hd, hr, hl⟩ := h
  simp [kei_bytes, readSpan, hd, hr, List.length_take]
  omega

/-- Claim C5: `kei_string_eq` returns false whenever the lengths differ;
for handles of equal length referencing identical storage it returns
true against every store (so without reading a single byte); otherwise
it is the byte-wise comparison.  It therefore is reflexive, symmetric,
and (on live handles) agrees with byte-wise equality of the two byte
sequences. -/
theorem C5_string_eq_spec (st : Store) (a b : kei_string)
    (ha : StrWF st a) (hb : StrWF st b) :
    (a.len ≠ b.len → kei_string_eq st a b = false) ∧
    (a.len = b.len → a.data = b.data → ∀ st2, kei_string_eq st2 a b = true) ∧
    (kei_string_eq st a b = true ↔ kei_bytes st a = kei_bytes st b) ∧
    kei_string_eq st a a = true ∧
    kei_string_eq st a b = kei_string_eq st b a := by
  refine ⟨?_, ?_, ?_, ?_, ?_⟩
  · intro h
    simp [kei_string_eq, h]
  · intro h1 h2 st2
    simp [kei_string_eq, h1, h2]
  · by_cases hlen : a.len = b.len
    · by_cases hdata : a.data = b.data
      · have ht : kei_string_eq st a b = true := by
          simp [kei_string_eq, hlen, hdata]
        simp [ht, kei_bytes, hlen, hdata]
      · have : kei_string_eq st a b =
            (readSpan st a.data a.len == readSpan st b.data a.len) := by
          simp [kei_string_eq, hlen, hdata]
        rw [this, beq_iff_eq]
        unfold kei_bytes
        rw [hlen]
    · have hf : kei_string_eq st a b = false := by simp [kei_string_eq, hlen]
      rw [hf]
      constructor
      · intro h
        exact absurd h (by simp)
      · intro h
        have l1 := kei_bytes_length st a ha
        have l2 := kei_bytes_length st b hb
        rw [h, l2] at l1
        have na := ha.1
        have nb := hb.1
        exact absurd (by omega : a.len = b.len) hlen
  · simp [kei_string_eq]
  · by_cases hlen : a.len = b.len
    · by_cases hdata : a.data = b.data
      · simp [kei_string_eq, hlen, hdata]
      · have hdata2 : b.data ≠ a.data := fun e => hdata e.symm
        have e1 : kei_string_eq st a b =
            (readSpan st a.data a.len == readSpan st b.data a.len) := by
          simp [kei_string_eq, hlen, hdata]
        have e2 : kei_string_eq st b a =
            (readSpan st b.data b.len == readSpan st a.data b.len) := by
          simp [kei_string_eq, hlen.symm, hdata2]
        rw [e1, e2, hlen, BEq.comm]
    · have h2 : b.len ≠ a.len := fun e => hlen e.symm
      simp [kei_string_eq, hlen, h2]

/-- Witness for C5: `"foo"` equals itself, differs from `"bar"`, and the
comparison is symmetric, all against the concrete `demoStore`. -/
theorem C5_witness :
    kei_string_eq demoStore fooS fooS = true ∧
    (kei_string_eq demoStore fooS barS = true ↔
      kei_bytes demoStore fooS = kei_bytes demoStore barS) ∧
    kei_string_eq demoStore fooS barS = kei_string_eq demoStore barS fooS :=
  ⟨(C5_string_eq_spec demoStore fooS fooS fooS_wf fooS_wf).2.2.2.1,
   (C5_string_eq_spec demoStore fooS barS fooS_wf barS_wf).2.2.1,
   (C5_string_eq_spec demoStore fooS barS fooS_wf barS_wf).2.2.2.2⟩


/-! ### The success-path allocation store and its frame lemmas -/

/-- The store after `kei_string_alloc(len)` with both mallocs succeeding:
fresh data buffer, fresh refcount cell written to 1, terminator byte
stored at index `len`. -/
def allocStoreTT (st : Store) (len : Int) : Store :=
  writeData (writeRefCell (mallocRef (mallocData st (len + 1)).2).2 st.nextRef 1)
    (some (Ptr.heap st.nextData)) len.toNat [0]

theorem kei_string_alloc_tt (st : Store) (len : Int) :
    kei_string_alloc st len true true =
      CResult.ok
        ({ data := some (Ptr.heap st.nextData), len := len, cap := len + 1,
           ref := some st.nextRef }, allocStoreTT st len) :=
  rfl

theorem writeData_heapRef (st : Store) (p : Option Ptr) (off : Nat) (src : List Nat) :
    (writeData st p off src).heapRef = st.heapRef := by
  match p with
  | none => rfl
  | some (Ptr.static a) => rfl
  | some (Ptr.heap a) => rfl

theorem writeData_freedData (st : Store) (p : Option Ptr) (off : Nat) (src : List Nat) :
    (writeData st p off src).freedData = st.freedData := by
  match p with
  | none => rfl
  | some (Ptr.static a) => rfl
  | some (Ptr.heap a) => rfl

theorem writeData_freedRef (st : Store) (p : Option Ptr) (off : Nat) (src : List Nat) :
    (writeData st p off src).freedRef = st.freedRef := by
  match p with
  | none => rfl
  | some (Ptr.static a) => rfl
  | some (Ptr.heap a) => rfl

theorem readBytes_writeData_ne (st : Store) (q p : Ptr) (off : Nat) (src : List Nat)
    (h : p ≠ q) :
    readBytes (writeData st (some q) off src) p = readBytes st p := by
  cases q with
  | static a =>
      cases p with
      | static b =>
          have hab : b ≠ a := fun e => h (by rw [e])
          simp [writeData, writePtr, readBytes, fupd_ne _ _ _ _ hab]
      | heap b => simp [writeData, writePtr, readBytes]
  | heap a =>
      cases p with
      | static b => simp [writeData, writePtr, readBytes]
      | heap b =>
          have hab : b ≠ a := fun e => h (by rw [e])
          simp [writeData, writePtr, readBytes, fupd_ne _ _ _ _ hab]

theorem readBytes_writeData_self (st : Store) (q : Ptr) (off : Nat) (src : List Nat) :
    readBytes (writeData st (some q) off src) q =
      (readBytes st q).map (fun l => writeBytes l off src) := by
  cases q <;> simp [writeData, writePtr, readBytes, fupd_self]

theorem allocStoreTT_nextData (st : Store) (len : Int) :
    (allocStoreTT st len).nextData = st.nextData + 1 :=
  rfl

theorem allocStoreTT_nextRef (st : Store) (len : Int) :
    (allocStoreTT st len).nextRef = st.nextRef + 1 :=
  rfl

theorem allocStoreTT_freedData (st : Store) (len : Int) :
    (allocStoreTT st len).freedData = st.freedData :=
  rfl

theorem allocStoreTT_freedRef (st : Store) (len : Int) :
    (allocStoreTT st len).freedRef = st.freedRef :=
  rfl

theorem allocStoreTT_heapRef_self (st : Store) (len : Int) :
    (allocStoreTT st len).heapRef st.nextRef = some 1 := by
  rw [allocStoreTT, writeData_heapRef]
  simp [writeRefCell, fupd_self]

theorem allocStoreTT_heapRef_ne (st : Store) (len : Int) (r0 : Nat)
    (h : r0 ≠ st.nextRef) :
    (allocStoreTT st len).heapRef r0 = st.heapRef r0 := by
  rw [allocStoreTT, writeData_heapRef]
  simp [writeRefCell, mallocRef, mallocData, fupd_ne _ _ _ _ h]

theorem allocStoreTT_heapData_self (st : Store) (len : Int) :
    (allocStoreTT st len).heapData st.nextData =
      some (writeBytes (freshContent st (len + 1).toNat) len.toNat [0]) := by
  simp [allocStoreTT, writeData, writePtr, readBytes, writeRefCell, mallocRef,
    mallocData, fupd_self]

theorem readBytes_allocStoreTT_ne (st : Store) (len : Int) (p : Ptr)
    (h : p ≠ Ptr.heap st.nextData) :
    readBytes (allocStoreTT st len) p = readBytes st p := by
  rw [allocStoreTT, readBytes_writeData_ne _ _ _ _ _ h]
  cases p with
  | static b => rfl
  | heap b =>
      have hb : b ≠ st.nextData := fun e => h (by rw [e])
      simp [readBytes, writeRefCell, mallocRef, mallocData, fupd_ne _ _ _ _ hb]

/-- A pointer the store maps is strictly below the bump allocator, hence
distinct from the next fresh heap pointer. -/
theorem mapped_ne_fresh (st : Store) (p : Ptr) (mem : List Nat)
    (hst : StoreWF st) (h : readBytes st p = some mem) :
    p ≠ Ptr.heap st.nextData := by
  intro e
  rw [e] at h
  rw [show readBytes st (Ptr.heap st.nextData) = st.heapData st.nextData from rfl,
    hst.1 st.nextData le_rfl] at h
  exact Option.noConfusion h

/-! ### Write-chain arithmetic on buffers -/

theorem writeBytes_merge (W A B : List Nat) :
    writeBytes (writeBytes W 0 A) A.length B = writeBytes W 0 (A ++ B) := by
  simp only [writeBytes, List.take_zero, List.nil_append, List.drop_zero,
    List.length_append, List.take_left, List.drop_append, List.drop_drop,
    List.append_assoc, Nat.zero_add]

theorem writeBytes_zero_full (W C : List Nat) (h : W.length ≤ C.length) :
    writeBytes W 0 C = C := by
  have hd : W.drop (0 + C.length) = [] := List.drop_eq_nil_of_le (by omega)
  simp only [writeBytes, List.take_zero, List.nil_append, hd, List.append_nil]


theorem writeBytes_length (dst src : List Nat) (off : Nat)
    (h : off + src.length ≤ dst.length) :
    (writeBytes dst off src).length = dst.length := by
  simp only [writeBytes, List.length_append, List.length_take, List.length_drop]
  omega

/-- The store after `kei_string_concat(a, b)` on the success path:
allocation, copy of the two byte runs, terminator. -/
def concatStoreTT (st : Store) (a b : kei_string) : Store :=
  let st1 := allocStoreTT st (a.len + b.len)
  let st2 := writeData st1 (some (Ptr.heap st.nextData)) 0 (readSpan st1 a.data a.len)
  let st3 := writeData st2 (some (Ptr.heap st.nextData)) a.len.toNat
    (readSpan st2 b.data b.len)
  writeData st3 (some (Ptr.heap st.nextData)) (a.len + b.len).toNat [0]

theorem kei_string_concat_tt (st : Store) (a b : kei_string) :
    kei_string_concat st a b true true =
      CResult.ok
        ({ data := some (Ptr.heap st.nextData), len := a.len + b.len,
           cap := a.len + b.len + 1, ref := some st.nextRef },
         concatStoreTT st a b) :=
  rfl

/-- Claim C4: `kei_string_concat` returns a freshly allocated owned
string (counter 1, terminator byte right after the payload) whose length
is `a.len + b.len` and whose bytes are exactly the bytes of `a` followed
by the bytes of `b`, whatever the ownership of `a` and `b`; it leaves
the bytes of `a` and of `b`, every other buffer, every other refcount
cell, and the free logs unchanged (it neither consumes nor releases its
arguments). -/
theorem C4_concat_spec (st : Store) (a b : kei_string)
    (hst : StoreWF st) (ha : StrWF st a) (hb : StrWF st b) :
    ∃ r st4, kei_string_concat st a b true true = CResult.ok (r, st4) ∧
      kei_string_len r = kei_string_len a + kei_string_len b ∧
      kei_bytes st4 r = kei_bytes st a ++ kei_bytes st b ∧
      r.ref = some st.nextRef ∧
      st4.heapRef st.nextRef = some 1 ∧
      r.data = some (Ptr.heap st.nextData) ∧
      r.cap = r.len + 1 ∧
      ((readBytes st4 (Ptr.heap st.nextData)).getD []).drop (a.len + b.len).toNat
        = [0] ∧
      kei_bytes st4 a = kei_bytes st a ∧
      kei_bytes st4 b = kei_bytes st b ∧
      st4.freedData = st.freedData ∧
      st4.freedRef = st.freedRef ∧
      (∀ q, q ≠ Ptr.heap st.nextData → readBytes st4 q = readBytes st q) ∧
      (∀ r0, r0 ≠ st.nextRef → st4.heapRef r0 = st.heapRef r0) := by
  obtain ⟨na, pa, memA, hda, hra, hla⟩ := ha
  obtain ⟨nb, pb, memB, hdb, hrb, hlb⟩ := hb
  have hne_a : pa ≠ Ptr.heap st.nextData := mapped_ne_fresh st pa memA hst hra
  have hne_b : pb ≠ Ptr.heap st.nextData := mapped_ne_fresh st pb memB hst hrb
  -- abbreviations
  set nl : Int := a.len + b.len with hnl
  set st1 : Store := allocStoreTT st nl with hst1
  set A : List Nat := readSpan st1 a.data a.len with hA0
  set st2 : Store := writeData st1 (some (Ptr.heap st.nextData)) 0 A with hst2
  set B : List Nat := readSpan st2 b.data b.len with hB0
  set st3 : Store := writeData st2 (some (Ptr.heap st.nextData)) a.len.toNat B
    with hst3
  set st4 : Store := writeData st3 (some (Ptr.heap st.nextData)) nl.toNat [0]
    with hst4
  have hcc : concatStoreTT st a b = st4 := rfl
  -- the two source spans read back unchanged
  have hAval : A = kei_bytes st a := by
    rw [hA0, kei_bytes, hda]
    simp only [readSpan]
    rw [readBytes_allocStoreTT_ne st nl pa hne_a]
  have hBval : B = kei_bytes st b := by
    rw [hB0, kei_bytes, hdb]
    simp only [readSpan]
    rw [hst2, readBytes_writeData_ne _ _ _ _ _ hne_b,
      readBytes_allocStoreTT_ne st nl pb hne_b]
  have hAlen : A.length = a.len.toNat := by
    rw [hAval]
    exact kei_bytes_length st a ⟨na, pa, memA, hda, hra, hla⟩
  have hBlen : B.length = b.len.toNat := by
    rw [hBval]
    exact kei_bytes_length st b ⟨nb, pb, memB, hdb, hrb, hlb⟩
  have hnlnat : nl.toNat = A.length + B.length := by
    rw [hAlen, hBlen, hnl]
    omega
  -- the result buffer
  have hW0 : readBytes st1 (Ptr.heap st.nextData) =
      some (writeBytes (freshContent st (nl + 1).toNat) nl.toNat [0]) := by
    rw [hst1, show readBytes (allocStoreTT st nl) (Ptr.heap st.nextData) =
      (allocStoreTT st nl).heapData st.nextData from rfl]
    exact allocStoreTT_heapData_self st nl
  have hfreshlen : (freshContent st (nl + 1).toNat).length =
      A.length + B.length + 1 := by
    simp only [freshContent, List.length_map, List.length_range]
    omega
  have hBuf : readBytes st4 (Ptr.heap st.nextData) = some ((A ++ B) ++ [0]) := by
    rw [hst4, readBytes_writeData_self, hst3, readBytes_writeData_self,
      hst2, readBytes_writeData_self, hW0]
    simp only [Option.map_some']
    congr 1
    rw [← hAlen, writeBytes_merge, hnlnat, ← List.length_append, writeBytes_merge]
    refine writeBytes_zero_full _ _ ?_
    rw [writeBytes_length _ _ _ (by simp [hfreshlen, List.length_append])]
    simp only [hfreshlen, List.length_append, List.length_cons, List.length_nil]
    omega
  refine ⟨_, _, kei_string_concat_tt st a b, ?_, ?_, rfl, ?_, rfl, rfl, ?_, ?_, ?_,
    ?_, ?_, ?_, ?_⟩
  · rfl
  · -- bytes of the result
    rw [hcc]
    show readSpan st4 (some (Ptr.heap st.nextData)) nl =
      kei_bytes st a ++ kei_bytes st b
    simp only [readSpan]
    rw [hBuf]
    simp only [Option.getD_some]
    rw [hnlnat, ← List.length_append, List.take_left, hAval, hBval]
  · -- counter of the fresh cell is 1
    rw [hcc, hst4, writeData_heapRef, hst3, writeData_heapRef, hst2,
      writeData_heapRef, hst1]
    exact allocStoreTT_heapRef_self st nl
  · -- terminator right after the payload
    rw [hcc, hBuf]
    simp only [Option.getD_some]
    rw [hnlnat, ← List.length_append, List.drop_left]
  · -- bytes of a unchanged
    rw [hcc, kei_bytes, kei_bytes, hda]
    simp only [readSpan]
    rw [hst4, readBytes_writeData_ne _ _ _ _ _ hne_a,
      hst3, readBytes_writeData_ne _ _ _ _ _ hne_a, hst2,
      readBytes_writeData_ne _ _ _ _ _ hne_a, hst1,
      readBytes_allocStoreTT_ne st nl pa hne_a]
  · -- bytes of b unchanged
    rw [hcc, kei_bytes, kei_bytes, hdb]
    simp only [readSpan]
    rw [hst4, readBytes_writeData_ne _ _ _ _ _ hne_b,
      hst3, readBytes_writeData_ne _ _ _ _ _ hne_b, hst2,
      readBytes_writeData_ne _ _ _ _ _ hne_b, hst1,
      readBytes_allocStoreTT_ne st nl pb hne_b]
  · -- free log for buffers unchanged
    rw [hcc, hst4, writeData_freedData, hst3, writeData_freedData, hst2,
      writeData_freedData, hst1]
    exact allocStoreTT_freedData st nl
  · -- free log for refcells unchanged
    rw [hcc, hst4, writeData_freedRef, hst3, writeData_freedRef, hst2,
      writeData_freedRef, hst1]
    exact allocStoreTT_freedRef st nl
  · -- every other buffer unchanged
    intro q hq
    rw [hcc, hst4, readBytes_writeData_ne _ _ _ _ _ hq, hst3,
      readBytes_writeData_ne _ _ _ _ _ hq, hst2,
      readBytes_writeData_ne _ _ _ _ _ hq, hst1,
      readBytes_allocStoreTT_ne st nl q hq]
  · -- every other refcount cell unchanged
    intro r0 hr0
    rw [hcc, hst4, writeData_heapRef, hst3, writeData_heapRef, hst2,
      writeData_heapRef, hst1]
    exact allocStoreTT_heapRef_ne st nl r0 hr0

/-- Witness for C4: concatenating the literals `"foo"` and `"bar"`
against `demoStore` yields a fresh owned string of length 6 with bytes
`"foobar"` and shared counter 1. -/
theorem C4_witness :
    ∃ r st4, kei_string_concat demoStore fooS barS true true = CResult.ok (r, st4) ∧
      kei_string_len r = 6 ∧
      kei_bytes st4 r = [102, 111, 111, 98, 97, 114] ∧
      r.ref = some 0 ∧
      st4.heapRef 0 = some 1 ∧
      kei_bytes st4 fooS = [102, 111, 111] := by
  obtain ⟨r, st4, h1, h2, h3, h4, h5, h6, h7, h8, h9, h10, rest⟩ :=
    C4_concat_spec demoStore fooS barS demoStore_wf fooS_wf barS_wf
  exact ⟨r, st4, h1, by rw [h2]; decide, by rw [h3]; decide, h4, h5,
    by rw [h9]; decide⟩


/-- The store after the copying branch of `kei_string_substr` with
already-clamped bounds `start1`, `end1`: allocation of `end1 - start1`
bytes, copy of the span, terminator. -/
def substrStoreTT (st : Store) (s : kei_string) (start1 end1 : Int) : Store :=
  let st1 := allocStoreTT st (end1 - start1)
  let st2 := writeData st1 (some (Ptr.heap st.nextData)) 0
    (readSpanFrom st1 s.data start1.toNat (end1 - start1))
  writeData st2 (some (Ptr.heap st.nextData)) (end1 - start1).toNat [0]

theorem kei_string_substr_eq (st : Store) (s : kei_string) (start0 end0 : Int) :
    kei_string_substr st s start0 end0 true true =
      (if (if start0 < 0 then (0 : Int) else start0) ≥
          (if end0 > s.len then s.len else end0) then
        CResult.ok (kei_string_literal st emptyLitPtr, st)
      else
        CResult.ok
          ({ data := some (Ptr.heap st.nextData),
             len := (if end0 > s.len then s.len else end0) -
               (if start0 < 0 then 0 else start0),
             cap := ((if end0 > s.len then s.len else end0) -
               (if start0 < 0 then 0 else start0)) + 1,
             ref := some st.nextRef },
           substrStoreTT st s (if start0 < 0 then 0 else start0)
             (if end0 > s.len then s.len else end0))) :=
  rfl

/-- Claim C3: `kei_string_substr` behaves as substring with both bounds
clamped to `[0, s.len]`: when the clamped start is at least the clamped
end it returns the canonical unowned empty string (ownership absent,
capacity 0, length 0) and touches no memory; otherwise it returns a
freshly allocated owned string (counter 1, fresh buffer, pointer
distinct from the source) holding exactly the bytes of `s` in the
half-open clamped range, and leaves the source bytes and the free logs
unchanged. -/
theorem C3_substr_spec (st : Store) (s : kei_string) (start0 end0 : Int)
    (hst : StoreWF st) (hs : StrWF st s) :
    (min (max start0 0) s.len ≥ min (max end0 0) s.len →
      kei_string_substr st s start0 end0 true true =
        CResult.ok
          ({ data := some (Ptr.static 0), len := 0, cap := 0, ref := none }, st)) ∧
    (min (max start0 0) s.len < min (max end0 0) s.len →
      ∃ t st3, kei_string_substr st s start0 end0 true true = CResult.ok (t, st3) ∧
        t.ref = some st.nextRef ∧
        st3.heapRef st.nextRef = some 1 ∧
        t.len = min (max end0 0) s.len - min (max start0 0) s.len ∧
        t.cap = t.len + 1 ∧
        t.data = some (Ptr.heap st.nextData) ∧
        t.data ≠ s.data ∧
        kei_bytes st3 t =
          ((kei_bytes st s).drop (min (max start0 0) s.len).toNat).take
            (min (max end0 0) s.len - min (max start0 0) s.len).toNat ∧
        kei_bytes st3 s = kei_bytes st s ∧
        st3.freedData = st.freedData ∧
        st3.freedRef = st.freedRef) := by
  obtain ⟨ns, ps, mem, hds, hrs, hls⟩ := hs
  have hne_s : ps ≠ Ptr.heap st.nextData := mapped_ne_fresh st ps mem hst hrs
  have hA : (if start0 < 0 then (0 : Int) else start0) = max start0 0 := by
    split <;> omega
  have hB : (if end0 > s.len then s.len else end0) = min end0 s.len := by
    split <;> omega
  have hempty : kei_string_literal st emptyLitPtr =
      { data := some (Ptr.static 0), len := 0, cap := 0, ref := none } := by
    have h0 : readBytes st (Ptr.static 0) = some [0] := hst.2.2
    have hsl : strlenBytes [0] = 0 := rfl
    simp [kei_string_literal, emptyLitPtr, h0, hsl]
  constructor
  · -- empty branch
    intro hge
    rw [kei_string_substr_eq, hA, hB,
      if_pos (show max start0 0 ≥ min end0 s.len by omega), hempty]
  · -- copying branch
    intro hlt
    have hcond : ¬ (max start0 0 ≥ min end0 s.len) := by omega
    have hSC : min (max start0 0) s.len = max start0 0 := by omega
    have hEC : min (max end0 0) s.len = min end0 s.len := by omega
    rw [kei_string_substr_eq, hA, hB, if_neg hcond, hSC, hEC]
    -- abbreviations for the clamped bounds
    set s1 : Int := max start0 0 with hs1
    set e1 : Int := min end0 s.len with he1
    set nl : Int := e1 - s1 with hnl
    set st1 : Store := allocStoreTT st nl with hst1
    set S : List Nat := readSpanFrom st1 s.data s1.toNat nl with hS0
    set st2 : Store := writeData st1 (some (Ptr.heap st.nextData)) 0 S with hst2
    set st3 : Store := writeData st2 (some (Ptr.heap st.nextData)) nl.toNat [0]
      with hst3
    have hsub : substrStoreTT st s s1 e1 = st3 := rfl
    have hSval : S = (mem.drop s1.toNat).take nl.toNat := by
      rw [hS0, hds]
      simp only [readSpanFrom]
      rw [hst1, readBytes_allocStoreTT_ne st nl ps hne_s, hrs]
      rfl
    have hSlen : S.length = nl.toNat := by
      rw [hSval]
      simp only [List.length_take, List.length_drop]
      omega
    have hfreshlen : (freshContent st (nl + 1).toNat).length = nl.toNat + 1 := by
      simp only [freshContent, List.length_map, List.length_range]
      omega
    have hW0 : readBytes st1 (Ptr.heap st.nextData) =
        some (writeBytes (freshContent st (nl + 1).toNat) nl.toNat [0]) := by
      rw [hst1, show readBytes (allocStoreTT st nl) (Ptr.heap st.nextData) =
        (allocStoreTT st nl).heapData st.nextData from rfl]
      exact allocStoreTT_heapData_self st nl
    have hBuf : readBytes st3 (Ptr.heap st.nextData) = some (S ++ [0]) := by
      rw [hst3, readBytes_writeData_self, hst2, readBytes_writeData_self, hW0]
      simp only [Option.map_some']
      congr 1
      rw [← hSlen, writeBytes_merge]
      refine writeBytes_zero_full _ _ ?_
      rw [writeBytes_length _ _ _ (by simp [hfreshlen, hSlen])]
      simp only [hfreshlen, hSlen, List.length_append, List.length_cons,
        List.length_nil]
      omega
    refine ⟨_, _, rfl, rfl, ?_, rfl, rfl, rfl, ?_, ?_, ?_, ?_, ?_⟩
    · -- counter of the fresh cell is 1
      rw [hsub, hst3, writeData_heapRef, hst2, writeData_heapRef, hst1]
      exact allocStoreTT_heapRef_self st nl
    · -- fresh data pointer, distinct from the source pointer
      rw [hds]
      simp only [ne_eq, Option.some.injEq]
      exact fun e => hne_s e.symm
    · -- bytes of the result are the clamped range of the source bytes
      rw [hsub]
      show readSpan st3 (some (Ptr.heap st.nextData)) nl =
        ((kei_bytes st s).drop s1.toNat).take nl.toNat
      simp only [readSpan]
      rw [hBuf]
      simp only [Option.getD_some]
      rw [← hSlen, List.take_left, hSlen, hSval]
      rw [kei_bytes, hds]
      simp only [readSpan]
      rw [hrs]
      simp only [Option.getD_some]
      rw [List.drop_take, List.take_take, Nat.min_eq_left (by omega)]
    · -- bytes of the source unchanged
      rw [hsub, kei_bytes, kei_bytes, hds]
      simp only [readSpan]
      rw [hst3, readBytes_writeData_ne _ _ _ _ _ hne_s, hst2,
        readBytes_writeData_ne _ _ _ _ _ hne_s, hst1,
        readBytes_allocStoreTT_ne st nl ps hne_s]
    · -- free log for buffers unchanged
      rw [hsub, hst3, writeData_freedData, hst2, writeData_freedData, hst1]
      exact allocStoreTT_freedData st nl
    · -- free log for refcells unchanged
      rw [hsub, hst3, writeData_freedRef, hst2, writeData_freedRef, hst1]
      exact allocStoreTT_freedRef st nl

/-- Witness for C3: against `demoStore`, `substring("hello", 3, 3)` is
the canonical unowned empty string, `substring("hello", -3, 4)` is the
owned string `"hell"`, and `substring("hello", 1, 100)` is the owned
string `"ello"`. -/
theorem C3_witness :
    kei_string_substr demoStore helloS 3 3 true true =
      CResult.ok
        ({ data := some (Ptr.static 0), len := 0, cap := 0, ref := none },
         demoStore) ∧
    (∃ t st3, kei_string_substr demoStore helloS (-3) 4 true true =
        CResult.ok (t, st3) ∧
      t.len = 4 ∧ t.ref = some 0 ∧ kei_bytes st3 t = [104, 101, 108, 108]) ∧
    (∃ t st3, kei_string_substr demoStore helloS 1 100 true true =
        CResult.ok (t, st3) ∧
      t.len = 4 ∧ kei_bytes st3 t = [101, 108, 108, 111]) := by
  refine ⟨(C3_substr_spec demoStore helloS 3 3 demoStore_wf helloS_wf).1 (by decide),
    ?_, ?_⟩
  · obtain ⟨t, st3, h1, h2, h3, h4, h5, h6, h7, h8, rest⟩ :=
      (C3_substr_spec demoStore helloS (-3) 4 demoStore_wf helloS_wf).2 (by decide)
    exact ⟨t, st3, h1, by rw [h4]; decide, h2, by rw [h8]; decide⟩
  · obtain ⟨t, st3, h1, h2, h3, h4, h5, h6, h7, h8, rest⟩ :=
      (C3_substr_spec demoStore helloS 1 100 demoStore_wf helloS_wf).2 (by decide)
    exact ⟨t, st3, h1, by rw [h4]; decide, by rw [h8]; decide⟩


theorem kei_string_copy_heapRef_self (st : Store) (s : kei_string) (r : Nat)
    (h : s.ref = some r) :
    ((kei_string_copy st s).2).heapRef r = (st.heapRef r).map (fun c => c + 1) := by
  simp [kei_string_copy, h, fupd_self]

theorem kei_string_copy_frame (st : Store) (s : kei_string) :
    ((kei_string_copy st s).2).heapData = st.heapData ∧
    ((kei_string_copy st s).2).freedData = st.freedData ∧
    ((kei_string_copy st s).2).freedRef = st.freedRef := by
  cases h : s.ref <;> simp [kei_string_copy, h]

theorem nCopies_heapRef_self (s : kei_string) (r : Nat) (h : s.ref = some r)
    (st : Store) (c : Int) (hc : st.heapRef r = some c) :
    ∀ k : Nat, (nCopies st s k).heapRef r = some (c + k) := by
  intro k
  induction k with
  | zero => simpa using hc
  | succ k ih =>
      show ((kei_string_copy (nCopies st s k) s).2).heapRef r = some (c + (k + 1 : Nat))
      rw [kei_string_copy_heapRef_self _ _ _ h, ih]
      simp only [Option.map_some']
      congr 1
      push_cast
      ring

theorem nCopies_frame (st : Store) (s : kei_string) :
    ∀ k : Nat, (nCopies st s k).heapData = st.heapData ∧
      (nCopies st s k).freedData = st.freedData ∧
      (nCopies st s k).freedRef = st.freedRef := by
  intro k
  induction k with
  | zero => exact ⟨rfl, rfl, rfl⟩
  | succ k ih =>
      obtain ⟨e1, e2, e3⟩ := kei_string_copy_frame (nCopies st s k) s
      exact ⟨e1.trans ih.1, e2.trans ih.2.1, e3.trans ih.2.2⟩

theorem kei_string_destroy_decrement (st : Store) (s : kei_string) (r : Nat)
    (c : Int) (h : s.ref = some r) (hc : st.heapRef r = some c) (h2 : 2 ≤ c) :
    (kei_string_destroy st s).2 = writeRefCell st r (c - 1) := by
  simp [kei_string_destroy, h, hc, show ¬ (c - 1 ≤ 0) by omega]

theorem kei_string_destroy_free (st : Store) (s : kei_string) (r : Nat) (p : Ptr)
    (h : s.ref = some r) (hc : st.heapRef r = some 1) (hd : s.data = some p) :
    (kei_string_destroy st s).2 = freeRef (freeData (writeRefCell st r 0) (some p)) r := by
  simp [kei_string_destroy, h, hc, hd]

theorem nDestroys_live (s : kei_string) (r : Nat) (h : s.ref = some r) :
    ∀ (j : Nat) (st : Store) (c : Int), st.heapRef r = some c → (j : Int) < c →
      (nDestroys st s j).heapRef r = some (c - j) ∧
      (nDestroys st s j).heapData = st.heapData ∧
      (nDestroys st s j).freedData = st.freedData ∧
      (nDestroys st s j).freedRef = st.freedRef := by
  intro j
  induction j with
  | zero =>
      intro st c hc hlt
      refine ⟨by simpa using hc, rfl, rfl, rfl⟩
  | succ j ih =>
      intro st c hc hlt
      obtain ⟨ih1, ih2, ih3, ih4⟩ := ih st c hc (by push_cast at hlt ⊢; omega)
      have hdec := kei_string_destroy_decrement (nDestroys st s j) s r (c - j)
        h ih1 (by push_cast at hlt ⊢; omega)
      have e : nDestroys st s (j + 1) = (kei_string_destroy (nDestroys st s j) s).2 :=
        rfl
      rw [e, hdec]
      refine ⟨?_, ih2, ih3, ih4⟩
      show fupd (nDestroys st s j).heapRef r (some (c - ↑j - 1)) r = some (c - ↑(j + 1))
      rw [fupd_self]
      congr 1
      push_cast
      ring

/-- The handle `kei_string_alloc` returns on the success path. -/
def allocHandle (st : Store) (len : Int) : kei_string :=
  { data := some (Ptr.heap st.nextData), len := len, cap := len + 1,
    ref := some st.nextRef }

/-- Claim C1: the reference-count lifecycle.  Allocation sets the shared
counter to 1.  Copying an owned handle increments the counter by exactly
1; copying an unowned handle changes nothing.  Destroying an owned
handle decrements the counter by exactly 1, freeing nothing while the
counter stays positive, and frees the backing buffer and the counter
cell exactly when the counter reaches zero.  Consequently, `k` copies
followed by `k + 1` destroys (one per handle) end with the backing
buffer and the counter cell each released exactly once — the free logs
hold exactly one entry each, so nothing is double-released. -/
theorem C1_refcount_lifecycle (st : Store) (len : Int) (k : Nat)
    (hfd : st.freedData = []) (hfr : st.freedRef = []) :
    ∃ s st1, kei_string_alloc st len true true = CResult.ok (s, st1) ∧
      s.ref = some st.nextRef ∧
      s.data = some (Ptr.heap st.nextData) ∧
      st1.heapRef st.nextRef = some 1 ∧
      (∀ (st2 : Store) (u : kei_string), u.ref = none →
        kei_string_copy st2 u = (u, st2)) ∧
      (∀ (st2 : Store) (c : Int), st2.heapRef st.nextRef = some c →
        ((kei_string_copy st2 s).2).heapRef st.nextRef = some (c + 1)) ∧
      (∀ (st2 : Store) (c : Int), st2.heapRef st.nextRef = some c → 2 ≤ c →
        ((kei_string_destroy st2 s).2).heapRef st.nextRef = some (c - 1) ∧
        ((kei_string_destroy st2 s).2).freedData = st2.freedData ∧
        ((kei_string_destroy st2 s).2).freedRef = st2.freedRef) ∧
      (∀ st2 : Store, st2.heapRef st.nextRef = some 1 →
        ((kei_string_destroy st2 s).2).freedData =
          st2.freedData ++ [Ptr.heap st.nextData] ∧
        ((kei_string_destroy st2 s).2).freedRef = st2.freedRef ++ [st.nextRef] ∧
        ((kei_string_destroy st2 s).2).heapData st.nextData = none ∧
        ((kei_string_destroy st2 s).2).heapRef st.nextRef = none) ∧
      (nCopies st1 s k).heapRef st.nextRef = some (1 + (k : Int)) ∧
      (nDestroys (nCopies st1 s k) s (k + 1)).freedData = [Ptr.heap st.nextData] ∧
      (nDestroys (nCopies st1 s k) s (k + 1)).freedRef = [st.nextRef] := by
  refine ⟨allocHandle st len, allocStoreTT st len, kei_string_alloc_tt st len,
    rfl, rfl, allocStoreTT_heapRef_self st len, ?_, ?_, ?_, ?_, ?_, ?_, ?_⟩
  · intro st2 u hu
    simp [kei_string_copy, hu]
  · intro st2 c hc
    rw [kei_string_copy_heapRef_self st2 (allocHandle st len) st.nextRef rfl, hc]
    rfl
  · intro st2 c hc h2
    rw [kei_string_destroy_decrement st2 (allocHandle st len) st.nextRef c rfl hc h2]
    exact ⟨by simp [writeRefCell, fupd_self], rfl, rfl⟩
  · intro st2 h1
    rw [kei_string_destroy_free st2 (allocHandle st len) st.nextRef (Ptr.heap st.nextData) rfl h1 rfl]
    refine ⟨rfl, rfl, ?_, ?_⟩
    · simp [freeRef, freeData, writeRefCell, fupd_self]
    · simp [freeRef, fupd_self]
  · exact nCopies_heapRef_self (allocHandle st len) st.nextRef rfl _ 1
      (allocStoreTT_heapRef_self st len) k
  · -- the backing buffer is released exactly once
    obtain ⟨hc1, hc2, hc3⟩ := nCopies_frame (allocStoreTT st len) (allocHandle st len) k
    have hcount := nCopies_heapRef_self (allocHandle st len) st.nextRef rfl _ 1
      (allocStoreTT_heapRef_self st len) k
    obtain ⟨hp1, hp2, hp3, hp4⟩ := nDestroys_live (allocHandle st len) st.nextRef rfl k
      (nCopies (allocStoreTT st len) (allocHandle st len) k) (1 + k) hcount (by omega)
    have e : nDestroys (nCopies (allocStoreTT st len) (allocHandle st len) k) (allocHandle st len) (k + 1) =
        (kei_string_destroy
          (nDestroys (nCopies (allocStoreTT st len) (allocHandle st len) k) (allocHandle st len) k) (allocHandle st len)).2 := rfl
    rw [e, kei_string_destroy_free _ (allocHandle st len) st.nextRef (Ptr.heap st.nextData) rfl
      (by rw [hp1]; congr 1; ring) rfl]
    simp only [freeRef, freeData, writeRefCell]
    rw [hp3, hc2, allocStoreTT_freedData, hfd]
    rfl
  · -- the counter cell is released exactly once
    obtain ⟨hc1, hc2, hc3⟩ := nCopies_frame (allocStoreTT st len) (allocHandle st len) k
    have hcount := nCopies_heapRef_self (allocHandle st len) st.nextRef rfl _ 1
      (allocStoreTT_heapRef_self st len) k
    obtain ⟨hp1, hp2, hp3, hp4⟩ := nDestroys_live (allocHandle st len) st.nextRef rfl k
      (nCopies (allocStoreTT st len) (allocHandle st len) k) (1 + k) hcount (by omega)
    have e : nDestroys (nCopies (allocStoreTT st len) (allocHandle st len) k) (allocHandle st len) (k + 1) =
        (kei_string_destroy
          (nDestroys (nCopies (allocStoreTT st len) (allocHandle st len) k) (allocHandle st len) k) (allocHandle st len)).2 := rfl
    rw [e, kei_string_destroy_free _ (allocHandle st len) st.nextRef (Ptr.heap st.nextData) rfl
      (by rw [hp1]; congr 1; ring) rfl]
    simp only [freeRef, freeData, writeRefCell]
    rw [hp4, hc3, allocStoreTT_freedRef, hfr]
    rfl

/-- Witness for C1: allocate a 3-byte string against `demoStore`, copy
it twice (counter 3), destroy all three handles: the buffer and the
counter cell are each freed exactly once. -/
theorem C1_witness :
    demoStore.freedData = [] ∧ demoStore.freedRef = [] ∧
    (∃ s st1, kei_string_alloc demoStore 3 true true = CResult.ok (s, st1) ∧
      st1.heapRef 0 = some 1 ∧
      (nCopies st1 s 2).heapRef 0 = some 3 ∧
      (nDestroys (nCopies st1 s 2) s 3).freedData = [Ptr.heap 0] ∧
      (nDestroys (nCopies st1 s 2) s 3).freedRef = [0]) := by
  refine ⟨rfl, rfl, ?_⟩
  obtain ⟨s, st1, h1, h2, h3, h4, h5, h6, h7, h8, h9, h10, h11⟩ :=
    C1_refcount_lifecycle demoStore 3 2 rfl rfl
  exact ⟨s, st1, h1, h4, h9.trans (by decide), h10, h11⟩

end KeiRuntime
